import Mathlib

/-!
Verification development for the Bitcoin Value-at-Risk forecasting repository.

Shallow embedding conventions used throughout this file:

* A floating-point value is modelled as FVal := Option ℚ, with none standing
  for a non-finite float (NaN or an infinity) and some q for the finite value
  q.  Finite float data is modelled exactly by rationals.
* numpy.quantile with the default linear-interpolation method is modelled by
  np_quantile; the sort inside it is modelled by the (stable) insertion sort
  from Mathlib.
* math.sqrt as applied by numpy.std is abstracted as a parameter
  fsqrt : ℚ → ℚ (the float square root of a nonnegative float); the random
  standard-normal draw set is abstracted as a parameter list z together with
  its size S (config.MONTE_CARLO_SIMS).
* scipy log / chi-squared cdf calls are abstracted as function parameters
  over an arbitrary linear ordered field R, and the float value inf is
  modelled by the top element of WithTop R.
* pandas Date indexes are modelled by the integer row position; a DataFrame
  is modelled column-major as a list of (column name, column values) pairs.
-/

/-- A float value: none models a non-finite float (NaN or infinity). -/
abbrev FVal := Option ℚ

/-- numpy mean of a list of floats: NaN on an empty list, NaN-propagating. -/
def np_mean (l : List FVal) : FVal :=
  if l.isEmpty || l.any Option.isNone then none
  else some ((l.filterMap id).sum / (l.length : ℚ))

/-- The square of the sample standard deviation computed by
numpy.std with ddof=1 (Bessel correction, divisor n-1): NaN-propagating,
NaN for lists of length at most one (0/0).  The standard deviation itself
is fsqrt of this value, for the abstracted float square root fsqrt. -/
def np_sample_var (l : List FVal) : FVal :=
  match np_mean l with
  | none => none
  | some m =>
    if l.length ≤ 1 then none
    else some ((((l.filterMap id).map (fun v => (v - m) ^ 2)).sum) / ((l.length : ℚ) - 1))

/-- numpy.quantile with the default linear interpolation between order
statistics, on a list of finite floats: sort, take the virtual index
h = p * (n - 1), and interpolate between the order statistics at
floor h and floor h + 1 (indices clamped into range). -/
def np_quantile (a : List ℚ) (p : ℚ) : ℚ :=
  if a.length = 0 then 0
  else
    let s := List.insertionSort (· ≤ ·) a
    let h : ℚ := p * ((a.length : ℚ) - 1)
    let j : ℕ := (⌊h⌋).toNat ⊓ (a.length - 1)
    let j1 : ℕ := (j + 1) ⊓ (a.length - 1)
    s.getD j 0 + (h - (⌊h⌋ : ℚ)) * (s.getD j1 0 - s.getD j 0)

/-- numpy.quantile on a list of floats: NaN when the list contains a NaN,
an error (modelled as NaN here) on an empty list. -/
def np_quantile_f (l : List FVal) (p : ℚ) : FVal :=
  if l.isEmpty || l.any Option.isNone then none
  else some (np_quantile (l.filterMap id) p)

theorem sorted_getD_mono {s : List ℚ} (hs : List.Sorted (· ≤ ·) s) {i j : ℕ}
    (hij : i ≤ j) (hj : j < s.length) : s.getD i 0 ≤ s.getD j 0 := by
  rcases lt_or_eq_of_le hij with hlt | rfl
  · rw [List.getD_eq_getElem _ _ (lt_of_le_of_lt hij hj), List.getD_eq_getElem _ _ hj]
    have := hs.rel_get_of_lt (a := ⟨i, lt_of_le_of_lt hij hj⟩) (b := ⟨j, hj⟩) hlt
    simpa using this
  · exact le_refl _

/-- The linear-interpolation quantile is monotone in the level p on [0, 1]. -/
theorem np_quantile_mono (a : List ℚ) {p q : ℚ}
    (hp : 0 ≤ p) (hpq : p ≤ q) (hq : q ≤ 1) :
    np_quantile a p ≤ np_quantile a q := by
  unfold np_quantile
  by_cases ha : a.length = 0
  · simp [ha]
  · simp only [ha, if_false]
    have hn : 1 ≤ a.length := Nat.one_le_iff_ne_zero.mpr ha
    set n := a.length with hndef
    set s := List.insertionSort (· ≤ ·) a with hsdef
    have hslen : s.length = n := List.length_insertionSort _ _
    have hsorted : List.Sorted (· ≤ ·) s := List.sorted_insertionSort _ _
    have hged : ∀ i j : ℕ, i ≤ j → j < n → s.getD i 0 ≤ s.getD j 0 := by
      intro i j hij hj
      exact sorted_getD_mono hsorted hij (by rw [hslen]; exact hj)
    have hn1 : (0:ℚ) ≤ (n : ℚ) - 1 := by
      have : (1:ℚ) ≤ (n : ℚ) := by exact_mod_cast hn
      linarith
    -- bounds for the virtual indexes
    have h0p : 0 ≤ p * ((n:ℚ) - 1) := mul_nonneg hp hn1
    have h0q : 0 ≤ q * ((n:ℚ) - 1) := mul_nonneg (le_trans hp hpq) hn1
    have hle : p * ((n:ℚ) - 1) ≤ q * ((n:ℚ) - 1) := mul_le_mul_of_nonneg_right hpq hn1
    have hup : q * ((n:ℚ) - 1) ≤ (n:ℚ) - 1 := by
      nlinarith
    -- floor bounds
    have hfp0 : 0 ≤ ⌊p * ((n:ℚ) - 1)⌋ := Int.floor_nonneg.mpr h0p
    have hfq0 : 0 ≤ ⌊q * ((n:ℚ) - 1)⌋ := Int.floor_nonneg.mpr h0q
    have hfmono : ⌊p * ((n:ℚ) - 1)⌋ ≤ ⌊q * ((n:ℚ) - 1)⌋ := Int.floor_mono hle
    have hcast : ((n:ℚ) - 1) = (((n:ℤ) - 1 : ℤ) : ℚ) := by push_cast; ring
    have hfqtop : ⌊q * ((n:ℚ) - 1)⌋ ≤ (n:ℤ) - 1 := by
      have h1 := Int.floor_mono hup
      have h2 : ⌊(n:ℚ) - 1⌋ = (n:ℤ) - 1 := by
        rw [hcast, Int.floor_intCast]
      rw [h2] at h1
      exact h1
    have hfptop : ⌊p * ((n:ℚ) - 1)⌋ ≤ (n:ℤ) - 1 := le_trans hfmono hfqtop
    -- the clamps are identities
    have hjp : (⌊p * ((n:ℚ) - 1)⌋).toNat ≤ n - 1 := by
      omega
    have hjq : (⌊q * ((n:ℚ) - 1)⌋).toNat ≤ n - 1 := by
      omega
    have hminp : (⌊p * ((n:ℚ) - 1)⌋).toNat ⊓ (n - 1) = (⌊p * ((n:ℚ) - 1)⌋).toNat :=
      min_eq_left hjp
    have hminq : (⌊q * ((n:ℚ) - 1)⌋).toNat ⊓ (n - 1) = (⌊q * ((n:ℚ) - 1)⌋).toNat :=
      min_eq_left hjq
    set jp := (⌊p * ((n:ℚ) - 1)⌋).toNat with hjpdef
    set jq := (⌊q * ((n:ℚ) - 1)⌋).toNat with hjqdef
    have hjplt : jp < n := by omega
    have hjqlt : jq < n := by omega
    have hj1plt : (jp + 1) ⊓ (n - 1) < n := by omega
    have hj1qlt : (jq + 1) ⊓ (n - 1) < n := by omega
    -- interpolation weights in [0, 1]
    have hgp0 : 0 ≤ p * ((n:ℚ) - 1) - (⌊p * ((n:ℚ) - 1)⌋ : ℚ) := by
      have := Int.floor_le (p * ((n:ℚ) - 1))
      linarith
    have hgp1 : p * ((n:ℚ) - 1) - (⌊p * ((n:ℚ) - 1)⌋ : ℚ) ≤ 1 := by
      have := Int.lt_floor_add_one (p * ((n:ℚ) - 1))
      linarith
    have hgq0 : 0 ≤ q * ((n:ℚ) - 1) - (⌊q * ((n:ℚ) - 1)⌋ : ℚ) := by
      have := Int.floor_le (q * ((n:ℚ) - 1))
      linarith
    have hgq1 : q * ((n:ℚ) - 1) - (⌊q * ((n:ℚ) - 1)⌋ : ℚ) ≤ 1 := by
      have := Int.lt_floor_add_one (q * ((n:ℚ) - 1))
      linarith
    rw [hminp, hminq]
    have hpv01 : s.getD jp 0 ≤ s.getD ((jp + 1) ⊓ (n - 1)) 0 := by
      rcases le_or_lt (jp + 1) (n - 1) with hcase | hcase
      · rw [min_eq_left hcase]; exact hged jp (jp + 1) (Nat.le_succ _) (by omega)
      · rw [min_eq_right (le_of_lt hcase)]; exact hged jp (n - 1) (by omega) (by omega)
    have hqv01 : s.getD jq 0 ≤ s.getD ((jq + 1) ⊓ (n - 1)) 0 := by
      rcases le_or_lt (jq + 1) (n - 1) with hcase | hcase
      · rw [min_eq_left hcase]; exact hged jq (jq + 1) (Nat.le_succ _) (by omega)
      · rw [min_eq_right (le_of_lt hcase)]; exact hged jq (n - 1) (by omega) (by omega)
    rcases eq_or_lt_of_le hfmono with heq | hlt
    · -- same segment: the weight is monotone
      have hjeq : jp = jq := by rw [hjpdef, hjqdef, heq]
      rw [hjeq]
      have hgle : p * ((n:ℚ) - 1) - (⌊p * ((n:ℚ) - 1)⌋ : ℚ) ≤
          q * ((n:ℚ) - 1) - (⌊q * ((n:ℚ) - 1)⌋ : ℚ) := by
        rw [heq]; linarith
      have hq01 := hqv01
      rw [← hjeq] at hq01
      nlinarith [hq01, hgle, hgp0]
    · -- different segments: chain through the order statistics
      have hstep : jp + 1 ≤ jq := by omega
      have h1 : s.getD jp 0 + (p * ((n:ℚ) - 1) - (⌊p * ((n:ℚ) - 1)⌋ : ℚ)) *
          (s.getD ((jp + 1) ⊓ (n - 1)) 0 - s.getD jp 0) ≤ s.getD ((jp + 1) ⊓ (n - 1)) 0 := by
        nlinarith [hpv01, hgp1, hgp0]
      have h2 : s.getD ((jp + 1) ⊓ (n - 1)) 0 ≤ s.getD jq 0 := by
        apply hged _ _ _ hjqlt
        exact le_trans (min_le_left _ _) hstep
      have h3 : s.getD jq 0 ≤ s.getD jq 0 + (q * ((n:ℚ) - 1) - (⌊q * ((n:ℚ) - 1)⌋ : ℚ)) *
          (s.getD ((jq + 1) ⊓ (n - 1)) 0 - s.getD jq 0) := by
        nlinarith [hqv01, hgq0]
      linarith

/-- The linear-interpolation quantile of a constant list is that constant. -/
theorem np_quantile_replicate (k : ℕ) (m p : ℚ) (hk : k ≠ 0) :
    np_quantile (List.replicate k m) p = m := by
  unfold np_quantile
  have hlen : (List.replicate k m).length = k := List.length_replicate _ _
  simp only [hlen, hk, if_false]
  have hmem : ∀ x ∈ List.insertionSort (· ≤ ·) (List.replicate k m), x = m := by
    intro x hx
    have := (List.perm_insertionSort (· ≤ ·) (List.replicate k m)).mem_iff.mp hx
    exact List.eq_of_mem_replicate this
  have hslen : (List.insertionSort (· ≤ ·) (List.replicate k m)).length = k := by
    rw [List.length_insertionSort, hlen]
  have hd : ∀ i : ℕ, i < k →
      (List.insertionSort (· ≤ ·) (List.replicate k m)).getD i 0 = m := by
    intro i hi
    rw [List.getD_eq_getElem _ _ (by rw [hslen]; exact hi)]
    exact hmem _ (List.getElem_mem _)
  rw [hd _ (by omega), hd _ (by omega)]
  ring

/-! ## The rolling-window forecast engine (src/models/utils.py) -/

/-- The body of the rolling-window loop of compute_var_rolling_window:
for each index, either append one output row (the date together with the
row of VaR values) or increment the skip counter, and never emit a partial
record for a skipped index. -/
def rolling_loop {α : Type} (dates : List ℕ) (calculate_var_point : ℕ → Option α) :
    List ℕ → List (ℕ × α) × ℕ
  | [] => ([], 0)
  | i :: rest =>
    let r := rolling_loop dates calculate_var_point rest
    match calculate_var_point i with
    | none => (r.1, r.2 + 1)
    | some a => ((dates.getD i 0, a) :: r.1, r.2)

/-- compute_var_rolling_window (src/models/utils.py): drives the index loop
from window_size to len(dates) - 1, delegating the per-point computation to
the injected callback; returns the output rows together with the skip count.
A row of VaR values is modelled as a list aligned with the confidence-level
list (the dict-of-column-lists of the source is row-major here). -/
def compute_var_rolling_window {α : Type} (dates : List ℕ) (window_size : ℕ)
    (calculate_var_point : ℕ → Option α) : List (ℕ × α) × ℕ :=
  rolling_loop dates calculate_var_point (List.range' window_size (dates.length - window_size))

/-! ## Monte Carlo model, callback version (src/models/monte_carlo.py) and
legacy version (src/models_monte_carlo.py).

Both estimate mu and sigma on the trailing window, simulate S returns
mu + sigma * z (or exactly mu when sigma is zero or non-finite), and take
the negated empirical quantile.  fsqrt abstracts the float square root used
by numpy.std, S abstracts config.MONTE_CARLO_SIMS and z the pre-generated
standard-normal draw set. -/

/-- The simulated sample set: all samples equal mu when sigma is zero or
non-finite, otherwise mu + sigma * z elementwise. -/
def mc_sims (S : ℕ) (z : List ℚ) (mu sigma : FVal) : List FVal :=
  if sigma.isNone || sigma == some 0 then List.replicate S mu
  else z.map (fun zi =>
    match mu, sigma with
    | some m, some sg => some (m + sg * zi)
    | _, _ => none)

/-- The shared numeric core of both Monte Carlo implementations at one time
point, applied to the trailing window: estimate mu and sigma, simulate,
and report -quantile(sims, 1 - cl) for each confidence level cl. -/
def mc_point_core (fsqrt : ℚ → ℚ) (S : ℕ) (z : List ℚ)
    (window : List FVal) (confidence_levels : List ℚ) : List FVal :=
  let mu := np_mean window
  let sigma := (np_sample_var window).map fsqrt
  let sims := mc_sims S z mu sigma
  confidence_levels.map (fun cl => (np_quantile_f sims (1 - cl)).map (fun qv => -qv))

/-- calculate_var_at_point of src/models/monte_carlo.py: skip (None) when
the window contains a NaN or the estimated mean is non-finite, otherwise
produce the row of VaR values. -/
def mc_calculate_var_at_point (fsqrt : ℚ → ℚ) (S : ℕ) (z : List ℚ)
    (values : List FVal) (window_size : ℕ) (i : ℕ)
    (confidence_levels : List ℚ) : Option (List FVal) :=
  let window := (values.drop (i - window_size)).take window_size
  if window.any Option.isNone then none
  else if (np_mean window).isNone then none
  else some (mc_point_core fsqrt S z window confidence_levels)

/-- The rolling computation of src/models/monte_carlo.py for one window
size: the engine driving mc_calculate_var_at_point. -/
def mc_compute_var_for_window (fsqrt : ℚ → ℚ) (S : ℕ) (z : List ℚ)
    (values : List FVal) (window_size : ℕ)
    (confidence_levels : List ℚ) : List (ℕ × List FVal) × ℕ :=
  compute_var_rolling_window (List.range values.length) window_size
    (fun i => mc_calculate_var_at_point fsqrt S z values window_size i confidence_levels)

/-- The legacy rolling computation of src/models_monte_carlo.py for one
window size: same numeric core but no skip logic at all — a row is emitted
for every index from window_size to len(values) - 1. -/
def mc_legacy_compute_var_for_window (fsqrt : ℚ → ℚ) (S : ℕ) (z : List ℚ)
    (values : List FVal) (window_size : ℕ)
    (confidence_levels : List ℚ) : List (ℕ × List FVal) :=
  (List.range' window_size (values.length - window_size)).map
    (fun i => (i, mc_point_core fsqrt S z ((values.drop (i - window_size)).take window_size)
      confidence_levels))

/-! ## Historical model (src/models_historical.py) -/

/-- calculate_var_at_point of src/models_historical.py: skip when the
window contains a NaN, otherwise report -quantile(window, 1 - cl) for each
confidence level. -/
def hist_calculate_var_at_point (returns : List FVal) (window_size : ℕ) (i : ℕ)
    (confidence_levels : List ℚ) : Option (List FVal) :=
  let window := (returns.drop (i - window_size)).take window_size
  if window.any Option.isNone then none
  else some (confidence_levels.map (fun cl => (np_quantile_f window (1 - cl)).map (fun qv => -qv)))

/-- The rolling computation of src/models_historical.py for one window
size: the engine driving hist_calculate_var_at_point. -/
def hist_compute_var_for_window (returns : List FVal) (window_size : ℕ)
    (confidence_levels : List ℚ) : List (ℕ × List FVal) × ℕ :=
  compute_var_rolling_window (List.range returns.length) window_size
    (fun i => hist_calculate_var_at_point returns window_size i confidence_levels)

/-! ## VIX-regression model (src/models_vix_regression.py)

The regression fit of numpy.polyfit at degree 1 is the ordinary
least-squares slope and intercept in closed form (for a degenerate design
matrix the rational division below is total with value 0, abstracting the
float least-squares fallback; the points concerned are gated by the
positivity check in any case).  math.sqrt is the abstracted float square
root fsqrt, and config.TRADING_DAYS_PER_YEAR is 252.  The in-loop NaN check
of the source is dead code after the initial dropna and has no counterpart
here; a row of the cleaned frame is a (VIX_decimal, RealizedVol_21d) pair,
and the Date index of the cleaned frame is modelled by the clean row
position. -/

/-- config.TRADING_DAYS_PER_YEAR. -/
def TRADING_DAYS_PER_YEAR : ℕ := 252

/-- config.Z_SCORES: the pre-tabulated standard-normal quantiles for the
two supported confidence levels (as in the source dict; any other level is
a lookup failure there, modelled as 0 here). -/
def Z_SCORES (cl : ℚ) : ℚ :=
  if cl = 95 / 100 then 1.6448536269514722
  else if cl = 99 / 100 then 2.3263478740408408
  else 0

/-- The dropna of _compute_var_for_window in src/models_vix_regression.py:
keep the rows where both VIX_decimal and RealizedVol_21d are finite. -/
def vix_clean (df : List (FVal × FVal)) : List (ℚ × ℚ) :=
  df.filterMap (fun r =>
    match r.1, r.2 with
    | some v, some rv => some (v, rv)
    | _, _ => none)

/-- The slope of numpy.polyfit(x, y, 1): ordinary least squares. -/
def polyfit_slope (x y : List ℚ) : ℚ :=
  ((x.length : ℚ) * (List.zipWith (· * ·) x y).sum - x.sum * y.sum) /
    ((x.length : ℚ) * (x.map (· ^ 2)).sum - x.sum ^ 2)

/-- The intercept of numpy.polyfit(x, y, 1): ordinary least squares. -/
def polyfit_intercept (x y : List ℚ) : ℚ :=
  (y.sum - polyfit_slope x y * x.sum) / (x.length : ℚ)

/-- One loop iteration of _compute_var_for_window in
src/models_vix_regression.py: fit the regression on the trailing window
[i - window_size, i), predict the annualized volatility from the lagged
VIX value at i - 1, skip when the prediction is not positive, otherwise
convert to daily volatility and scale by the tabulated z-scores. -/
def vix_calculate_var_at_point (fsqrt : ℚ → ℚ) (x y : List ℚ) (window_size : ℕ)
    (confidence_levels : List ℚ) (i : ℕ) : Option (List ℚ) :=
  let x_win := (x.drop (i - window_size)).take window_size
  let y_win := (y.drop (i - window_size)).take window_size
  let slope := polyfit_slope x_win y_win
  let intercept := polyfit_intercept x_win y_win
  let sigma_ann := intercept + slope * x.getD (i - 1) 0
  if sigma_ann ≤ 0 then none
  else
    let sigma_daily := sigma_ann / fsqrt (TRADING_DAYS_PER_YEAR : ℚ)
    some (confidence_levels.map (fun cl => Z_SCORES cl * sigma_daily))

/-- _compute_var_for_window of src/models_vix_regression.py: dropna, then
the same loop/skip/assemble scaffolding as the generic engine, driving the
per-point regression computation; returns rows and the skip count. -/
def vix_compute_var_for_window (fsqrt : ℚ → ℚ) (df : List (FVal × FVal))
    (window_size : ℕ) (confidence_levels : List ℚ) : List (ℕ × List ℚ) × ℕ :=
  let c := vix_clean df
  rolling_loop (List.range c.length)
    (fun i => vix_calculate_var_at_point fsqrt (c.map Prod.fst) (c.map Prod.snd)
      window_size confidence_levels i)
    (List.range' window_size (c.length - window_size))

/-! ## Input validation and the model entry points -/

/-- A pandas DataFrame, column-major; len(data) is the common column
length, read from the first column. -/
abbrev Frame := List (String × List FVal)

/-- len(data) for a Frame. -/
def frame_len (f : Frame) : ℕ :=
  match f with
  | [] => 0
  | c :: _ => c.2.length

/-- The window-size loop of validate_model_inputs
(src/utils/validation.py) and of calculate_vix_regression_var: reject a
non-positive window size, then a window size exceeding the data length. -/
def check_windows (dataLen : ℕ) : List (String × ℤ) → Except String Unit
  | [] => .ok ()
  | (label, w) :: rest =>
    if w ≤ 0 then .error ("Window size must be positive for " ++ label)
    else if (dataLen : ℤ) < w then .error ("Window size exceeds data length for " ++ label)
    else check_windows dataLen rest

/-- The confidence-level loop of validate_model_inputs: reject any level
outside the open interval (0, 1). -/
def check_confidence_levels : List ℚ → Except String Unit
  | [] => .ok ()
  | cl :: rest =>
    if ¬(0 < cl ∧ cl < 1) then .error "Confidence level must be in the open interval"
    else check_confidence_levels rest

/-- validate_model_inputs (src/utils/validation.py): data non-empty, then
window sizes, then confidence levels.  The config-default substitution for
omitted arguments is not modelled; arguments are always explicit here. -/
def validate_model_inputs (f : Frame) (rolling_windows : List (String × ℤ))
    (confidence_levels : List ℚ) : Except String Unit :=
  if frame_len f = 0 then .error "data cannot be None or empty"
  else
    match check_windows (frame_len f) rolling_windows with
    | .error e => .error e
    | .ok _ => check_confidence_levels confidence_levels

/-- validate_required_columns (src/utils/validation.py). -/
def validate_required_columns (f : Frame) (required : List String) : Except String Unit :=
  let missing := required.filter (fun c => (f.lookup c).isNone)
  if missing.isEmpty then .ok () else .error "Missing required columns"

/-- calculate_historical_var (src/models_historical.py): shared validation,
required-column check, then one rolling computation per window size. -/
def calculate_historical_var (f : Frame) (rolling_windows : List (String × ℤ))
    (confidence_levels : List ℚ) :
    Except String (List (String × (List (ℕ × List FVal) × ℕ))) :=
  match validate_model_inputs f rolling_windows confidence_levels with
  | .error e => .error e
  | .ok _ =>
    match validate_required_columns f ["Returns"] with
    | .error e => .error e
    | .ok _ =>
      let returns := (f.lookup "Returns").getD []
      .ok (rolling_windows.map (fun p =>
        (p.1, hist_compute_var_for_window returns p.2.toNat confidence_levels)))

/-- calculate_monte_carlo_var of src/models/monte_carlo.py (the
callback-based version): shared validation, required-column check, then
one rolling computation per window size. -/
def mc_calculate_monte_carlo_var (fsqrt : ℚ → ℚ) (S : ℕ) (z : List ℚ) (f : Frame)
    (rolling_windows : List (String × ℤ)) (confidence_levels : List ℚ) :
    Except String (List (String × (List (ℕ × List FVal) × ℕ))) :=
  match validate_model_inputs f rolling_windows confidence_levels with
  | .error e => .error e
  | .ok _ =>
    match validate_required_columns f ["Returns"] with
    | .error e => .error e
    | .ok _ =>
      let returns := (f.lookup "Returns").getD []
      .ok (rolling_windows.map (fun p =>
        (p.1, mc_compute_var_for_window fsqrt S z returns p.2.toNat confidence_levels)))

/-- calculate_monte_carlo_var of src/models_monte_carlo.py (the legacy
version imported by main.py): no parameter validation at all, only the
Returns-column check, then one legacy rolling computation per window
size. -/
def legacy_calculate_monte_carlo_var (fsqrt : ℚ → ℚ) (S : ℕ) (z : List ℚ) (f : Frame)
    (rolling_windows : List (String × ℤ)) (confidence_levels : List ℚ) :
    Except String (List (String × List (ℕ × List FVal))) :=
  if (f.lookup "Returns").isNone then .error "Data must have Returns column"
  else
    let returns := (f.lookup "Returns").getD []
    .ok (rolling_windows.map (fun p =>
      (p.1, mc_legacy_compute_var_for_window fsqrt S z returns p.2.toNat confidence_levels)))

/-- calculate_vix_regression_var (src/models_vix_regression.py): the same
validation steps inlined (data non-empty, window sizes, confidence levels,
required columns), then one rolling regression computation per window. -/
def calculate_vix_regression_var (fsqrt : ℚ → ℚ) (f : Frame)
    (rolling_windows : List (String × ℤ)) (confidence_levels : List ℚ) :
    Except String (List (String × (List (ℕ × List ℚ) × ℕ))) :=
  if frame_len f = 0 then .error "data cannot be None or empty"
  else
    match check_windows (frame_len f) rolling_windows with
    | .error e => .error e
    | .ok _ =>
      match check_confidence_levels confidence_levels with
      | .error e => .error e
      | .ok _ =>
        match validate_required_columns f ["RealizedVol_21d", "VIX_decimal"] with
        | .error e => .error e
        | .ok _ =>
          let x := (f.lookup "VIX_decimal").getD []
          let y := (f.lookup "RealizedVol_21d").getD []
          .ok (rolling_windows.map (fun p =>
            (p.1, vix_compute_var_for_window fsqrt (x.zip y) p.2.toNat confidence_levels)))

/-! ## Kupiec unconditional-coverage test (src/evaluation_kupiec.py)

The float computations of the test are embedded over an arbitrary linear
ordered field R; numpy.log and the chi-squared(df=1) cdf of scipy are
abstracted as function parameters log and chi2cdf, and the float value inf
produced in the degenerate branch is the top element of WithTop R.  A
pandas Series is a list of (timestamp, float value) pairs with unique
timestamps; merging two Series on their indexes and dropping missing
values keeps exactly the timestamps present in both with both values
finite.  The int() truncation in the VaR column name is the floor (the two
agree on the unit interval of confidence levels). -/

/-- config.SIGNIFICANCE_LEVEL (0.05). -/
def SIGNIFICANCE_LEVEL (R : Type) [LinearOrderedField R] : R := 5 / 100

/-- A returns or VaR-forecast input: a bare Series or a DataFrame. -/
inductive KInput where
  | series (s : List (ℕ × FVal))
  | frame (cols : List (String × List (ℕ × FVal)))

/-- The VaR column name determined by the confidence level. -/
def var_col (cl : ℚ) : String := "VaR_" ++ toString ⌊cl * 100⌋

/-- Returns-input handling of run_kupiec_test: a DataFrame must have the
Returns column; a Series is used as is. -/
def extract_returns : KInput → Except String (List (ℕ × FVal))
  | .series s => .ok s
  | .frame cols =>
    match cols.lookup "Returns" with
    | some s => .ok s
    | none => .error "Returns DataFrame must have Returns column"

/-- VaR-input handling of run_kupiec_test: a DataFrame must have the
VaR column named for the confidence level; a Series is used as is. -/
def extract_var (cl : ℚ) : KInput → Except String (List (ℕ × FVal))
  | .series s => .ok s
  | .frame cols =>
    match cols.lookup (var_col cl) with
    | some s => .ok s
    | none => .error "VaR forecasts must have the VaR column"

/-- Index-aligned merge followed by dropna: the (return, VaR) pairs at the
timestamps present in both Series with both values finite. -/
def merge_dropna (rs vs : List (ℕ × FVal)) : List (ℚ × ℚ) :=
  rs.filterMap (fun p =>
    match p.2, vs.lookup p.1 with
    | some r, some (some v) => some (r, v)
    | _, _ => none)

/-- The result dict of run_kupiec_test. -/
structure KupiecResult (R : Type) where
  model : String
  rollingWindow : String
  confidenceLevel : ℚ
  n : ℕ
  violations : ℕ
  expectedViolations : R
  violationRate : R
  lr : WithTop R
  pValue : R
  reject : Bool

/-- run_kupiec_test (src/evaluation_kupiec.py): extract the two series,
merge and dropna, fail on an empty alignment, count the strict violations
return < -VaR, and compute the likelihood-ratio statistic, its p-value and
the rejection flag, with the degenerate x = 0 or x = n branch fixed to
(inf, 0). -/
def run_kupiec_test {R : Type} [LinearOrderedField R] (log chi2cdf : R → R)
    (returns var_forecasts : KInput) (confidence_level : ℚ)
    (model_name window_label : String) : Except String (KupiecResult R) :=
  match extract_returns returns with
  | .error e => .error e
  | .ok rs =>
    match extract_var confidence_level var_forecasts with
    | .error e => .error e
    | .ok vs =>
      let df := merge_dropna rs vs
      if df.isEmpty then .error "No valid data after merging returns and VaR"
      else
        let x := df.countP (fun p => decide (p.1 < -p.2))
        let n := df.length
        let p0 : R := 1 - (confidence_level : R)
        if n = 0 then .error "No observations available for testing"
        else
          let lr_pv : WithTop R × R :=
            if x = 0 ∨ x = n then (⊤, 0)
            else
              let p_hat : R := (x : R) / (n : R)
              let logL0 : R := ((n : R) - (x : R)) * log (1 - p0) + (x : R) * log p0
              let logL1 : R := ((n : R) - (x : R)) * log (1 - p_hat) + (x : R) * log p_hat
              let LR_uc : R := -2 * (logL0 - logL1)
              ((LR_uc : R) , 1 - chi2cdf LR_uc)
          .ok {
            model := model_name
            rollingWindow := window_label
            confidenceLevel := confidence_level
            n := n
            violations := x
            expectedViolations := (n : R) * p0
            violationRate := if 0 < n then (x : R) / (n : R) else 0
            lr := lr_pv.1
            pValue := lr_pv.2
            reject := decide (lr_pv.2 < SIGNIFICANCE_LEVEL R) }

/-- The inner confidence-level loop of run_kupiec_tests_for_model: the
try/except around each single test appends the result on success and
silently moves on after a failure. -/
def kupiec_try_levels {R : Type} [LinearOrderedField R] (log chi2cdf : R → R)
    (returns : KInput) (var_df : KInput) (model_name window_label : String) :
    List ℚ → List (KupiecResult R)
  | [] => []
  | cl :: rest =>
    match run_kupiec_test log chi2cdf returns var_df cl model_name window_label with
    | .ok r => r :: kupiec_try_levels log chi2cdf returns var_df model_name window_label rest
    | .error _ => kupiec_try_levels log chi2cdf returns var_df model_name window_label rest

/-- run_kupiec_tests_for_model (src/evaluation_kupiec.py): the batch over
the window dict and the confidence levels, tolerating per-combination
failures. -/
def run_kupiec_tests_for_model {R : Type} [LinearOrderedField R] (log chi2cdf : R → R)
    (returns : KInput) (model_name : String) (confidence_levels : List ℚ) :
    List (String × KInput) → List (KupiecResult R)
  | [] => []
  | (window_label, var_df) :: rest =>
    kupiec_try_levels log chi2cdf returns var_df model_name window_label confidence_levels ++
      run_kupiec_tests_for_model log chi2cdf returns model_name confidence_levels rest

/-! ## Model comparison ranking (src/evaluation_summary.py)

rank_models_by_coverage groups the comparison table by
(RollingWindow, ConfidenceLevel), sorts each group ascending by
AbsDeviation with pandas sort_values, and assigns the ranks 1..k
positionally within the sorted group.  The pandas groupby key enumeration
is abstracted to first-appearance order of the keys (the claims under
study are within a single group).  sort_values with its default quicksort
is abstracted as a function parameter: a deterministic routine whose
output is some ascending-by-AbsDeviation permutation of the group, with
no guarantee on the relative order of tied rows. -/

/-- One row of the comparison table, restricted to the columns that
rank_models_by_coverage reads and reports. -/
structure ComparisonRow where
  model : String
  rollingWindow : String
  confidenceLevel : ℚ
  violations : ℚ
  expectedViolations : ℚ
  absDeviation : ℚ
deriving DecidableEq

/-- One row of the ranking table produced by rank_models_by_coverage. -/
structure RankedRow where
  model : String
  rollingWindow : String
  confidenceLevel : ℚ
  violations : ℚ
  expectedViolations : ℚ
  absDeviation : ℚ
  rank : ℕ
deriving DecidableEq

/-- The groupby key of a comparison row. -/
def row_key (r : ComparisonRow) : String × ℚ := (r.rollingWindow, r.confidenceLevel)

/-- The per-group rank assignment of rank_models_by_coverage, applied to
the output of sort_values: assign the ranks range(1, len + 1)
positionally along the sorted group. -/
def rank_group (sorted_group : List ComparisonRow) : List RankedRow :=
  (sorted_group.zip (List.range' 1 sorted_group.length)).map (fun p =>
    { model := p.1.model
      rollingWindow := p.1.rollingWindow
      confidenceLevel := p.1.confidenceLevel
      violations := p.1.violations
      expectedViolations := p.1.expectedViolations
      absDeviation := p.1.absDeviation
      rank := p.2 })

/-- rank_models_by_coverage (src/evaluation_summary.py), parameterized by
sort_values, the abstracted pandas sort of each group by AbsDeviation
(default quicksort: deterministic, ascending, tie order unspecified). -/
def rank_models_by_coverage (sort_values : List ComparisonRow → List ComparisonRow)
    (comparison : List ComparisonRow) : List RankedRow :=
  ((comparison.map row_key).dedup).flatMap
    (fun k => rank_group (sort_values (comparison.filter (fun r => decide (row_key r = k)))))

/-! ## Engine lemmas -/

theorem rolling_loop_count {α : Type} (dates : List ℕ) (f : ℕ → Option α) (I : List ℕ) :
    (rolling_loop dates f I).1.length + (rolling_loop dates f I).2 = I.length := by
  induction I with
  | nil => simp [rolling_loop]
  | cons i I ih =>
    simp only [rolling_loop]
    cases hf : f i <;> simp only [hf] <;> simp <;> omega

theorem rolling_loop_mem {α : Type} (dates : List ℕ) (f : ℕ → Option α) (I : List ℕ) :
    ∀ p ∈ (rolling_loop dates f I).1, ∃ i ∈ I, f i = some p.2 ∧ p.1 = dates.getD i 0 := by
  induction I with
  | nil => simp [rolling_loop]
  | cons i I ih =>
    intro p hp
    simp only [rolling_loop] at hp
    cases hf : f i with
    | none =>
      rw [hf] at hp
      obtain ⟨j, hj, hfj, hpj⟩ := ih p hp
      exact ⟨j, List.mem_cons_of_mem _ hj, hfj, hpj⟩
    | some a =>
      rw [hf] at hp
      rcases List.mem_cons.mp hp with heq | hmem
      · subst heq
        exact ⟨i, List.mem_cons_self _ _, hf, rfl⟩
      · obtain ⟨j, hj, hfj, hpj⟩ := ih p hmem
        exact ⟨j, List.mem_cons_of_mem _ hj, hfj, hpj⟩

/-- C5.  Skip accounting: for the generic rolling-window engine with any
per-point callback, and for the VIX-regression rolling loop, the number of
emitted forecast rows plus the reported skip count equals the length of
the series the loop runs over minus the window size (the full input series
for the engine-based models, whose callbacks turn missing data into skips;
the cleaned series for the VIX model, which drops missing rows up front);
moreover every emitted row comes from an index in [window_size, length)
whose callback produced exactly that row, so no partial record is emitted
for skipped timestamps. -/
theorem skip_accounting {α : Type} (dates : List ℕ) (window_size : ℕ)
    (calculate_var_point : ℕ → Option α) (fsqrt : ℚ → ℚ) (df : List (FVal × FVal))
    (confidence_levels : List ℚ)
    (h1 : window_size ≤ dates.length) (h2 : window_size ≤ (vix_clean df).length) :
    ((compute_var_rolling_window dates window_size calculate_var_point).1.length
        + (compute_var_rolling_window dates window_size calculate_var_point).2
      = dates.length - window_size)
    ∧ ((vix_compute_var_for_window fsqrt df window_size confidence_levels).1.length
        + (vix_compute_var_for_window fsqrt df window_size confidence_levels).2
      = (vix_clean df).length - window_size)
    ∧ (∀ p ∈ (compute_var_rolling_window dates window_size calculate_var_point).1,
        ∃ i, window_size ≤ i ∧ i < dates.length ∧ calculate_var_point i = some p.2
          ∧ p.1 = dates.getD i 0) := by
  refine ⟨?_, ?_, ?_⟩
  · rw [compute_var_rolling_window, rolling_loop_count, List.length_range']
  · simp only [vix_compute_var_for_window]
    rw [rolling_loop_count, List.length_range']
  · intro p hp
    obtain ⟨i, hi, hfi, hpi⟩ := rolling_loop_mem _ _ _ p hp
    rw [List.mem_range'] at hi
    obtain ⟨k, hk, hik⟩ := hi
    exact ⟨i, by omega, by omega, hfi, hpi⟩

/-- Witness for C5 at a concrete engine input and a concrete VIX frame. -/
theorem skip_accounting_witness :
    ((compute_var_rolling_window [0, 1, 2] 1 (fun _ => (none : Option ℕ))).1.length
        + (compute_var_rolling_window [0, 1, 2] 1 (fun _ => (none : Option ℕ))).2
      = ([0, 1, 2] : List ℕ).length - 1)
    ∧ ((vix_compute_var_for_window (fun _ => 0) [(some 1, some 1), (some 2, some 2)] 1 []).1.length
        + (vix_compute_var_for_window (fun _ => 0) [(some 1, some 1), (some 2, some 2)] 1 []).2
      = (vix_clean [(some 1, some 1), (some 2, some 2)]).length - 1)
    ∧ (∀ p ∈ (compute_var_rolling_window [0, 1, 2] 1 (fun _ => (none : Option ℕ))).1,
        ∃ i, 1 ≤ i ∧ i < ([0, 1, 2] : List ℕ).length ∧ (fun _ => (none : Option ℕ)) i = some p.2
          ∧ p.1 = ([0, 1, 2] : List ℕ).getD i 0) :=
  skip_accounting [0, 1, 2] 1 (fun _ => (none : Option ℕ)) (fun _ => 0)
    [(some 1, some 1), (some 2, some 2)] [] (by decide) (by decide)

/-! ## No-look-ahead lemmas -/

theorem take_window_eq {x₁ x₂ : List ℚ} {i a b : ℕ} (hab : a + b ≤ i)
    (hx : x₁.take i = x₂.take i) :
    (x₁.drop a).take b = (x₂.drop a).take b := by
  have e : ∀ x : List ℚ, (x.drop a).take b = ((x.take i).drop a).take b := by
    intro x
    rw [List.drop_take, List.take_take]
    congr 1
    omega
  rw [e x₁, e x₂, hx]

theorem take_getD_eq {x₁ x₂ : List ℚ} {i k : ℕ} (hk : k < i)
    (hx : x₁.take i = x₂.take i) :
    x₁.getD k 0 = x₂.getD k 0 := by
  have e : ∀ x : List ℚ, x.getD k 0 = (x.take i).getD k 0 := by
    intro x
    rw [List.getD_eq_getElem?_getD, List.getD_eq_getElem?_getD, List.getElem?_take, if_pos hk]
  rw [e x₁, e x₂, hx]

/-- C4.  No look-ahead for the volatility-regression model: the forecast
produced at index i depends only on the records at indices below i (which
include the lagged index value read at i - 1) — two inputs agreeing below
i produce the same forecast at i. -/
theorem vix_no_look_ahead (fsqrt : ℚ → ℚ) (x₁ y₁ x₂ y₂ : List ℚ)
    (window_size i : ℕ) (confidence_levels : List ℚ)
    (hw : 1 ≤ window_size) (hwi : window_size ≤ i)
    (hx : x₁.take i = x₂.take i) (hy : y₁.take i = y₂.take i) :
    vix_calculate_var_at_point fsqrt x₁ y₁ window_size confidence_levels i =
      vix_calculate_var_at_point fsqrt x₂ y₂ window_size confidence_levels i := by
  simp only [vix_calculate_var_at_point]
  rw [take_window_eq (by omega) hx, take_window_eq (by omega) hy,
    take_getD_eq (by omega) hx]

/-- Witness for C4: altering the inputs at indices at or beyond i leaves
the forecast at i unchanged. -/
theorem vix_no_look_ahead_witness :
    vix_calculate_var_at_point (fun _ => 1) [1, 2, 3] [1, 1, 5] 1 [] 2 =
      vix_calculate_var_at_point (fun _ => 1) [1, 2, 4] [1, 1, 6] 1 [] 2 :=
  vix_no_look_ahead (fun _ => 1) [1, 2, 3] [1, 1, 5] [1, 2, 4] [1, 1, 6] 1 2 []
    (by decide) (by decide) (by rfl) (by rfl)

/-! ## Monotonicity across confidence levels -/

/-- The first reported VaR value is at most the second (on optional
values; vacuous when either value is non-finite or absent). -/
def pair_le_opt (l : List FVal) : Prop :=
  ∀ a b : ℚ, l.getD 0 none = some a → l.getD 1 none = some b → a ≤ b

theorem quantile_pair_mono (lst : List FVal) :
    pair_le_opt (([95 / 100, 99 / 100] : List ℚ).map
      (fun cl => (np_quantile_f lst (1 - cl)).map (fun qv => -qv))) := by
  intro a b ha hb
  simp only [List.map_cons, List.map_nil, List.getD_cons_zero, List.getD_cons_succ] at ha hb
  by_cases hc : (lst.isEmpty || lst.any Option.isNone) = true
  · rw [np_quantile_f, if_pos hc] at ha
    simp at ha
  · rw [np_quantile_f, if_neg hc] at ha hb
    simp only [Option.map_some'] at ha hb
    injection ha with ha
    injection hb with hb
    have hm := np_quantile_mono (lst.filterMap id)
      (p := 1 - 99 / 100) (q := 1 - 95 / 100) (by norm_num) (by norm_num) (by norm_num)
    rw [← ha, ← hb]
    linarith

/-- C6.  Monotonicity across confidence levels: whenever any of the three
models emits a forecast row for the confidence levels [0.95, 0.99], the
VaR value at 99 percent is at least the VaR value at 95 percent. -/
theorem var99_ge_var95
    (returns : List FVal) (fsqrt : ℚ → ℚ) (S : ℕ) (z : List ℚ)
    (gsqrt : ℚ → ℚ) (x y : List ℚ)
    (window_size i wv iv : ℕ) (l₁ l₂ : List FVal) (r : List ℚ)
    (h₁ : hist_calculate_var_at_point returns window_size i [95 / 100, 99 / 100] = some l₁)
    (h₂ : mc_calculate_var_at_point fsqrt S z returns window_size i [95 / 100, 99 / 100] = some l₂)
    (h₃ : vix_calculate_var_at_point gsqrt x y wv [95 / 100, 99 / 100] iv = some r)
    (hg : 0 < gsqrt (TRADING_DAYS_PER_YEAR : ℚ)) :
    pair_le_opt l₁ ∧ pair_le_opt l₂ ∧ r.getD 0 0 ≤ r.getD 1 0 := by
  refine ⟨?_, ?_, ?_⟩
  · simp only [hist_calculate_var_at_point] at h₁
    split at h₁
    · exact absurd h₁ (by simp)
    · injection h₁ with h₁
      rw [← h₁]
      exact quantile_pair_mono _
  · simp only [mc_calculate_var_at_point] at h₂
    split at h₂
    · exact absurd h₂ (by simp)
    · split at h₂
      · exact absurd h₂ (by simp)
      · injection h₂ with h₂
        rw [← h₂]
        simp only [mc_point_core]
        exact quantile_pair_mono _
  · simp only [vix_calculate_var_at_point] at h₃
    split at h₃
    · exact absurd h₃ (by simp)
    · rename_i hpos
      push_neg at hpos
      injection h₃ with h₃
      rw [← h₃]
      simp only [List.map_cons, List.map_nil, List.getD_cons_zero, List.getD_cons_succ]
      have hz : Z_SCORES (95 / 100) ≤ Z_SCORES (99 / 100) := by
        norm_num [Z_SCORES]
      have hsd : 0 ≤ (polyfit_intercept ((x.drop (iv - wv)).take wv) ((y.drop (iv - wv)).take wv)
          + polyfit_slope ((x.drop (iv - wv)).take wv) ((y.drop (iv - wv)).take wv)
            * x.getD (iv - 1) 0) / gsqrt (TRADING_DAYS_PER_YEAR : ℚ) :=
        div_nonneg (le_of_lt hpos) (le_of_lt hg)
      exact mul_le_mul_of_nonneg_right hz hsd

/-- Witness for C6 at concrete inputs on which all three models emit a
forecast row. -/
theorem var99_ge_var95_witness :
    pair_le_opt [some (-1), some (-1)] ∧ pair_le_opt [some (-1), some (-1)] ∧
      (([1.6448536269514722, 2.3263478740408408] : List ℚ).getD 0 0 ≤
        ([1.6448536269514722, 2.3263478740408408] : List ℚ).getD 1 0) :=
  var99_ge_var95 [some 1, some 2] (fun _ => 0) 1 [0] (fun _ => 1) [2, 3] [1, 1]
    1 1 1 1 [some (-1), some (-1)] [some (-1), some (-1)]
    [1.6448536269514722, 2.3263478740408408]
    (by norm_num [hist_calculate_var_at_point, np_quantile_f, np_quantile,
      List.insertionSort, List.orderedInsert, List.filterMap_cons, List.filterMap_nil])
    (by norm_num [mc_calculate_var_at_point, mc_point_core, np_mean, np_sample_var,
      mc_sims, np_quantile_f, np_quantile, List.insertionSort, List.orderedInsert,
      List.filterMap_cons, List.filterMap_nil])
    (by norm_num [vix_calculate_var_at_point, polyfit_slope, polyfit_intercept,
      Z_SCORES, TRADING_DAYS_PER_YEAR])
    (by norm_num)

/-! ## Monte Carlo degenerate case -/

/-- C9.  When the sample standard deviation computed for a window is zero
or non-finite while the mean m is finite, every simulated sample is
exactly m, so both Monte Carlo implementations report -m at every
confidence level; and a window whose mean is non-finite is skipped by the
callback implementation (no row emitted). -/
theorem mc_degenerate_sigma
    (fsqrt : ℚ → ℚ) (S : ℕ) (z : List ℚ) (values : List FVal)
    (window_size i : ℕ) (confidence_levels : List ℚ) (m : ℚ)
    (hS : 1 ≤ S)
    (hmu : np_mean ((values.drop (i - window_size)).take window_size) = some m)
    (hsig : (np_sample_var ((values.drop (i - window_size)).take window_size)).map fsqrt = none
      ∨ (np_sample_var ((values.drop (i - window_size)).take window_size)).map fsqrt = some 0) :
    mc_calculate_var_at_point fsqrt S z values window_size i confidence_levels
        = some (confidence_levels.map (fun _ => some (-m)))
    ∧ mc_point_core fsqrt S z ((values.drop (i - window_size)).take window_size)
        confidence_levels = confidence_levels.map (fun _ => some (-m))
    ∧ ∀ j, np_mean ((values.drop (j - window_size)).take window_size) = none →
        mc_calculate_var_at_point fsqrt S z values window_size j confidence_levels = none := by
  have hcond : (((values.drop (i - window_size)).take window_size).isEmpty
      || ((values.drop (i - window_size)).take window_size).any Option.isNone) = false := by
    cases hcnd : (((values.drop (i - window_size)).take window_size).isEmpty
        || ((values.drop (i - window_size)).take window_size).any Option.isNone) with
    | false => rfl
    | true =>
      rw [np_mean, hcnd] at hmu
      simp at hmu
  have hany : ((values.drop (i - window_size)).take window_size).any Option.isNone = false := by
    cases h : ((values.drop (i - window_size)).take window_size).any Option.isNone with
    | false => rfl
    | true => rw [h, Bool.or_true] at hcond; exact absurd hcond (by simp)
  have hcore : mc_point_core fsqrt S z ((values.drop (i - window_size)).take window_size)
      confidence_levels = confidence_levels.map (fun _ => some (-m)) := by
    simp only [mc_point_core, hmu]
    have hsims : mc_sims S z (some m)
        ((np_sample_var ((values.drop (i - window_size)).take window_size)).map fsqrt)
        = List.replicate S (some m) := by
      rcases hsig with hsg | hsg <;>
        simp only [mc_sims, hsg] <;> simp
    rw [hsims]
    have hqf : ∀ p : ℚ, np_quantile_f (List.replicate S (some m)) p = some m := by
      intro p
      rw [np_quantile_f]
      have he : (List.replicate S (some m) : List FVal).isEmpty = false := by
        cases S with
        | zero => omega
        | succ k => simp [List.replicate]
      have ha : (List.replicate S (some m) : List FVal).any Option.isNone = false := by
        simp
      rw [he, ha]
      simp only [Bool.or_self, if_false]
      rw [List.filterMap_replicate]
      simp only [id]
      rw [np_quantile_replicate S m p (by omega)]
      rfl
    apply List.map_congr_left
    intro cl _
    rw [hqf]
    rfl
  refine ⟨?_, hcore, ?_⟩
  · simp only [mc_calculate_var_at_point, hany, hmu]
    simp [hcore]
  · intro j hj
    simp only [mc_calculate_var_at_point]
    cases hanyj : ((values.drop (j - window_size)).take window_size).any Option.isNone with
    | true => simp [hanyj]
    | false => simp [hanyj, hj]

/-- Witness for C9 at a concrete length-one window, whose Bessel-corrected
sample standard deviation is non-finite (0/0). -/
theorem mc_degenerate_sigma_witness :
    mc_calculate_var_at_point (fun _ => 0) 1 [0] [some 2] 1 1 [95 / 100, 99 / 100]
        = some (([95 / 100, 99 / 100] : List ℚ).map (fun _ => some (-2)))
    ∧ mc_point_core (fun _ => 0) 1 [0] ((([some 2] : List FVal).drop (1 - 1)).take 1)
        [95 / 100, 99 / 100] = ([95 / 100, 99 / 100] : List ℚ).map (fun _ => some (-2))
    ∧ ∀ j, np_mean ((([some 2] : List FVal).drop (j - 1)).take 1) = none →
        mc_calculate_var_at_point (fun _ => 0) 1 [0] [some 2] 1 j [95 / 100, 99 / 100] = none :=
  mc_degenerate_sigma (fun _ => 0) 1 [0] [some 2] 1 1 [95 / 100, 99 / 100] 2
    (by decide)
    (by norm_num [np_mean, List.filterMap_cons, List.filterMap_nil])
    (Or.inl (by norm_num [np_sample_var, np_mean, List.filterMap_cons, List.filterMap_nil]))

/-! ## Refinement between the two Monte Carlo implementations -/

theorem any_isNone_eq (l : List FVal) : l.any Option.isNone = !l.all Option.isSome := by
  induction l with
  | nil => rfl
  | cons a t ih => cases a <;> simp [ih]

theorem mc_loop_eq (fsqrt : ℚ → ℚ) (S : ℕ) (z : List ℚ) (values : List FVal)
    (window_size : ℕ) (cls : List ℚ) (hw : 1 ≤ window_size) (I : List ℕ)
    (hI : ∀ i ∈ I, i < values.length) :
    (rolling_loop (List.range values.length)
        (fun i => mc_calculate_var_at_point fsqrt S z values window_size i cls) I).1
      = (I.map (fun i => (i, mc_point_core fsqrt S z
            ((values.drop (i - window_size)).take window_size) cls))).filter
          (fun p => ((values.drop (p.1 - window_size)).take window_size).all Option.isSome) := by
  induction I with
  | nil => rfl
  | cons i I ih =>
    have hi : i < values.length := hI i (List.mem_cons_self _ _)
    have hrest := ih (fun j hj => hI j (List.mem_cons_of_mem _ hj))
    cases hfin : ((values.drop (i - window_size)).take window_size).all Option.isSome with
    | false =>
      have hany : ((values.drop (i - window_size)).take window_size).any Option.isNone = true := by
        rw [any_isNone_eq, hfin]; rfl
      have hcalc : mc_calculate_var_at_point fsqrt S z values window_size i cls = none := by
        simp only [mc_calculate_var_at_point, hany]
        rfl
      simp only [rolling_loop, hcalc, List.map_cons, List.filter_cons]
      simp only [hfin, Bool.false_eq_true, if_false]
      exact hrest
    | true =>
      have hany : ((values.drop (i - window_size)).take window_size).any Option.isNone
          = false := by
        rw [any_isNone_eq, hfin]; rfl
      have hlen : 0 < ((values.drop (i - window_size)).take window_size).length := by
        rw [List.length_take, List.length_drop]
        omega
      have hemp : ((values.drop (i - window_size)).take window_size).isEmpty = false := by
        cases hc : ((values.drop (i - window_size)).take window_size) with
        | nil => rw [hc] at hlen; simp at hlen
        | cons a t => rfl
      have hmean : (np_mean ((values.drop (i - window_size)).take window_size)).isNone
          = false := by
        rw [np_mean, hemp, hany]
        rfl
      have hcalc : mc_calculate_var_at_point fsqrt S z values window_size i cls
          = some (mc_point_core fsqrt S z
              ((values.drop (i - window_size)).take window_size) cls) := by
        simp only [mc_calculate_var_at_point, hany, hmean]
        rfl
      have hdate : (List.range values.length).getD i 0 = i := by
        rw [List.getD_eq_getElem?_getD, List.getElem?_range hi]
        rfl
      simp only [rolling_loop, hcalc, List.map_cons, List.filter_cons]
      simp only [hfin, if_true, hdate]
      rw [hrest]

/-- C10.  Refinement between the two Monte Carlo implementations under the
same configuration (float square root, simulation count, draw set): the
callback version emits exactly the legacy rows whose trailing window is
entirely finite, with identical timestamps and identical VaR values; in
particular on an input with only finite values the two produce identical
forecast tables, and they differ only at rows whose window contains a
non-finite value, which the callback version skips. -/
theorem mc_refinement (fsqrt : ℚ → ℚ) (S : ℕ) (z : List ℚ) (values : List FVal)
    (window_size : ℕ) (cls : List ℚ) (hw : 1 ≤ window_size) :
    ((mc_compute_var_for_window fsqrt S z values window_size cls).1
      = (mc_legacy_compute_var_for_window fsqrt S z values window_size cls).filter
          (fun p => ((values.drop (p.1 - window_size)).take window_size).all Option.isSome))
    ∧ (values.all Option.isSome = true →
        (mc_compute_var_for_window fsqrt S z values window_size cls).1
          = mc_legacy_compute_var_for_window fsqrt S z values window_size cls) := by
  have hmain : (mc_compute_var_for_window fsqrt S z values window_size cls).1
      = (mc_legacy_compute_var_for_window fsqrt S z values window_size cls).filter
          (fun p => ((values.drop (p.1 - window_size)).take window_size).all Option.isSome) := by
    unfold mc_compute_var_for_window compute_var_rolling_window
      mc_legacy_compute_var_for_window
    rw [List.length_range]
    apply mc_loop_eq fsqrt S z values window_size cls hw
    intro j hj
    rw [List.mem_range'] at hj
    obtain ⟨k, hk, hjk⟩ := hj
    omega
  refine ⟨hmain, ?_⟩
  intro hall
  rw [hmain]
  apply List.filter_eq_self.mpr
  intro p _
  apply List.all_eq_true.mpr
  intro v hv
  exact List.all_eq_true.mp hall v (List.mem_of_mem_drop (List.mem_of_mem_take hv))

/-- Witness for C10 at a concrete all-finite input. -/
theorem mc_refinement_witness :
    ((mc_compute_var_for_window (fun _ => 0) 1 [0] [some 1] 1 []).1
      = (mc_legacy_compute_var_for_window (fun _ => 0) 1 [0] [some 1] 1 []).filter
          (fun p => ((([some 1] : List FVal).drop (p.1 - 1)).take 1).all Option.isSome))
    ∧ (([some 1] : List FVal).all Option.isSome = true →
        (mc_compute_var_for_window (fun _ => 0) 1 [0] [some 1] 1 []).1
          = mc_legacy_compute_var_for_window (fun _ => 0) 1 [0] [some 1] 1 []) :=
  mc_refinement (fun _ => 0) 1 [0] [some 1] 1 [] (by decide)

/-! ## Kupiec test claims -/

/-- The returns input lacks its required column. -/
def missing_returns_column : KInput → Prop
  | .series _ => False
  | .frame cols => cols.lookup "Returns" = none

/-- The VaR input lacks the column named for the confidence level. -/
def missing_var_column (cl : ℚ) : KInput → Prop
  | .series _ => False
  | .frame cols => cols.lookup (var_col cl) = none

/-- The aligned (return, VaR) observations run_kupiec_test tests on
(empty when either extraction fails). -/
def kupiec_aligned (returns var_forecasts : KInput) (cl : ℚ) : List (ℚ × ℚ) :=
  match extract_returns returns, extract_var cl var_forecasts with
  | .ok rs, .ok vs => merge_dropna rs vs
  | _, _ => []

/-- C1.  Kupiec edge case: when the violation count is 0 or equals the
number of aligned observations, the returned statistic is infinite, the
p-value is 0 and the rejection flag is set. -/
theorem kupiec_edge_case {R : Type} [LinearOrderedField R] (log chi2cdf : R → R)
    (returns var_forecasts : KInput) (cl : ℚ) (mn wl : String) (res : KupiecResult R)
    (h : run_kupiec_test log chi2cdf returns var_forecasts cl mn wl = .ok res)
    (hx : res.violations = 0 ∨ res.violations = res.n) :
    res.lr = ⊤ ∧ res.pValue = 0 ∧ res.reject = true := by
  simp only [run_kupiec_test] at h
  split at h
  · exact absurd h (by simp)
  · split at h
    · exact absurd h (by simp)
    · split at h
      · exact absurd h (by simp)
      · split at h
        · exact absurd h (by simp)
        · injection h with h
          subst h
          simp only at hx
          refine ⟨?_, ?_, ?_⟩
          · dsimp only
            split
            · rfl
            · rename_i hc
              exact absurd hx hc
          · dsimp only
            split
            · rfl
            · rename_i hc
              exact absurd hx hc
          · dsimp only
            split
            · simp only [decide_eq_true_eq]
              norm_num [SIGNIFICANCE_LEVEL]
            · rename_i hc
              exact absurd hx hc

/-- The result of the Kupiec test on one aligned observation with no
violation (edge case x = 0). -/
def kupiec_c1_result : KupiecResult ℚ :=
  { model := "m", rollingWindow := "w", confidenceLevel := 1 / 2, n := 1, violations := 0,
    expectedViolations := 1 / 2, violationRate := 0, lr := ⊤, pValue := 0, reject := true }

/-- Witness for C1 on a concrete series pair with zero violations. -/
theorem kupiec_edge_case_witness :
    kupiec_c1_result.lr = ⊤ ∧ kupiec_c1_result.pValue = 0 ∧ kupiec_c1_result.reject = true :=
  kupiec_edge_case (fun _ => 0) (fun _ => 0) (.series [(0, some 0)]) (.series [(0, some 1)])
    (1 / 2) "m" "w" kupiec_c1_result
    (by norm_num [run_kupiec_test, extract_returns, extract_var, merge_dropna,
      kupiec_c1_result, SIGNIFICANCE_LEVEL, List.lookup, List.filterMap_cons,
      List.countP_cons, List.countP_nil])
    (Or.inl rfl)

/-- C2.  The non-degenerate Kupiec computation: the violation count is the
number of aligned observations with return strictly below the negated VaR,
the statistic follows the stated likelihood-ratio formula with p0 = 1 - c
and observed rate x/n, the p-value is the upper chi-squared(1) tail at the
statistic, and the null is rejected exactly when the p-value is below
0.05. -/
theorem kupiec_statistic_formula {R : Type} [LinearOrderedField R] (log chi2cdf : R → R)
    (returns var_forecasts : KInput) (cl : ℚ) (mn wl : String) (res : KupiecResult R)
    (h : run_kupiec_test log chi2cdf returns var_forecasts cl mn wl = .ok res)
    (hx0 : 0 < res.violations) (hxn : res.violations < res.n) :
    res.violations = (kupiec_aligned returns var_forecasts cl).countP
        (fun p => decide (p.1 < -p.2))
    ∧ res.n = (kupiec_aligned returns var_forecasts cl).length
    ∧ res.lr = (((-2) * (((res.n : R) - (res.violations : R)) * log (1 - (1 - (cl : R)))
          + (res.violations : R) * log (1 - (cl : R))
          - ((res.n : R) - (res.violations : R)) *
              log (1 - (res.violations : R) / (res.n : R))
          - (res.violations : R) * log ((res.violations : R) / (res.n : R))) : R) : WithTop R)
    ∧ res.pValue = 1 - chi2cdf ((-2) * (((res.n : R) - (res.violations : R)) *
            log (1 - (1 - (cl : R)))
          + (res.violations : R) * log (1 - (cl : R))
          - ((res.n : R) - (res.violations : R)) *
              log (1 - (res.violations : R) / (res.n : R))
          - (res.violations : R) * log ((res.violations : R) / (res.n : R))))
    ∧ (res.reject = true ↔ res.pValue < SIGNIFICANCE_LEVEL R) := by
  simp only [run_kupiec_test] at h
  split at h
  · exact absurd h (by simp)
  · rename_i rs her
    split at h
    · exact absurd h (by simp)
    · rename_i vs hev
      split at h
      · exact absurd h (by simp)
      · split at h
        · exact absurd h (by simp)
        · injection h with h
          subst h
          simp only at hx0 hxn
          have hal : kupiec_aligned returns var_forecasts cl = merge_dropna rs vs := by
            rw [kupiec_aligned, her, hev]
          have hc : ¬((merge_dropna rs vs).countP (fun p => decide (p.1 < -p.2)) = 0 ∨
              (merge_dropna rs vs).countP (fun p => decide (p.1 < -p.2))
                = (merge_dropna rs vs).length) := by
            rintro (hc | hc) <;> omega
          refine ⟨by rw [hal], by rw [hal], ?_, ?_, ?_⟩
          · dsimp only
            rw [if_neg hc]
            rw [WithTop.coe_eq_coe]
            ring
          · dsimp only
            rw [if_neg hc]
            have harg : (-2 : R) * ((((merge_dropna rs vs).length : R)
                  - ((merge_dropna rs vs).countP (fun p => decide (p.1 < -p.2)) : R)) *
                    log (1 - (1 - (cl : R)))
                + ((merge_dropna rs vs).countP (fun p => decide (p.1 < -p.2)) : R) *
                    log (1 - (cl : R))
                - (((merge_dropna rs vs).length : R)
                  - ((merge_dropna rs vs).countP (fun p => decide (p.1 < -p.2)) : R)) *
                    log (1 - ((merge_dropna rs vs).countP (fun p => decide (p.1 < -p.2)) : R)
                      / ((merge_dropna rs vs).length : R))
                - ((merge_dropna rs vs).countP (fun p => decide (p.1 < -p.2)) : R) *
                    log (((merge_dropna rs vs).countP (fun p => decide (p.1 < -p.2)) : R)
                      / ((merge_dropna rs vs).length : R)))
              = -2 * ((((merge_dropna rs vs).length : R)
                  - ((merge_dropna rs vs).countP (fun p => decide (p.1 < -p.2)) : R)) *
                    log (1 - (1 - (cl : R)))
                + ((merge_dropna rs vs).countP (fun p => decide (p.1 < -p.2)) : R) *
                    log (1 - (cl : R))
                - ((((merge_dropna rs vs).length : R)
                  - ((merge_dropna rs vs).countP (fun p => decide (p.1 < -p.2)) : R)) *
                    log (1 - ((merge_dropna rs vs).countP (fun p => decide (p.1 < -p.2)) : R)
                      / ((merge_dropna rs vs).length : R))
                + ((merge_dropna rs vs).countP (fun p => decide (p.1 < -p.2)) : R) *
                    log (((merge_dropna rs vs).countP (fun p => decide (p.1 < -p.2)) : R)
                      / ((merge_dropna rs vs).length : R)))) := by
              ring
            rw [← harg]
          · dsimp only
            rw [if_neg hc]
            simp only [decide_eq_true_eq]

/-- The result of the Kupiec test on two aligned observations with one
violation, under trivial abstract log and chi-squared cdf functions. -/
def kupiec_c2_result : KupiecResult ℚ :=
  { model := "m", rollingWindow := "w", confidenceLevel := 1 / 2, n := 2, violations := 1,
    expectedViolations := 1, violationRate := 1 / 2, lr := ((0 : ℚ) : WithTop ℚ),
    pValue := 1, reject := false }

/-- Witness for C2 on a concrete series pair with one violation out of
two observations. -/
theorem kupiec_statistic_formula_witness :
    kupiec_c2_result.violations
        = (kupiec_aligned (.series [(0, some (-2)), (1, some 0)])
            (.series [(0, some 1), (1, some 1)]) (1 / 2)).countP
            (fun p => decide (p.1 < -p.2))
    ∧ kupiec_c2_result.n
        = (kupiec_aligned (.series [(0, some (-2)), (1, some 0)])
            (.series [(0, some 1), (1, some 1)]) (1 / 2)).length
    ∧ kupiec_c2_result.lr = ((((-2) * (((kupiec_c2_result.n : ℚ)
          - (kupiec_c2_result.violations : ℚ)) * 0
          + (kupiec_c2_result.violations : ℚ) * 0
          - ((kupiec_c2_result.n : ℚ) - (kupiec_c2_result.violations : ℚ)) * 0
          - (kupiec_c2_result.violations : ℚ) * 0)) : ℚ) : WithTop ℚ)
    ∧ kupiec_c2_result.pValue = 1 - 0
    ∧ (kupiec_c2_result.reject = true ↔ kupiec_c2_result.pValue < SIGNIFICANCE_LEVEL ℚ) :=
  kupiec_statistic_formula (fun _ => 0) (fun _ => 0)
    (.series [(0, some (-2)), (1, some 0)]) (.series [(0, some 1), (1, some 1)])
    (1 / 2) "m" "w" kupiec_c2_result
    (by
      have hmerge : merge_dropna [(0, some (-2)), (1, some 0)] [(0, some 1), (1, some 1)]
          = [((-2 : ℚ), (1 : ℚ)), (0, 1)] := rfl
      norm_num [run_kupiec_test, extract_returns, extract_var, hmerge,
        kupiec_c2_result, SIGNIFICANCE_LEVEL, List.countP_cons, List.countP_nil])
    (by norm_num [kupiec_c2_result])
    (by norm_num [kupiec_c2_result])

theorem kupiec_try_levels_eq {R : Type} [LinearOrderedField R] (log chi2cdf : R → R)
    (returns var_df : KInput) (mn wl : String) (cls : List ℚ) :
    kupiec_try_levels log chi2cdf returns var_df mn wl cls
      = cls.filterMap (fun c => (run_kupiec_test log chi2cdf returns var_df c mn wl).toOption) := by
  induction cls with
  | nil => rfl
  | cons c cs ih =>
    simp only [kupiec_try_levels, List.filterMap_cons]
    cases hr : run_kupiec_test (R := R) log chi2cdf returns var_df c mn wl with
    | error e => simp [hr, ih, Except.toOption]
    | ok r => simp [hr, ih, Except.toOption]

/-- C3.  The Kupiec test fails exactly when a required column is absent or
the aligned observation set after merging and dropping missing values is
empty; and the batch runner catches each per-(window, confidence level)
failure, excludes exactly that combination from the collected results, and
continues. -/
theorem kupiec_errors_and_batch {R : Type} [LinearOrderedField R] (log chi2cdf : R → R)
    (returns var_forecasts : KInput) (cl : ℚ) (mn wl : String)
    (var_results : List (String × KInput)) (cls : List ℚ) :
    ((∃ e, run_kupiec_test (R := R) log chi2cdf returns var_forecasts cl mn wl = .error e)
      ↔ (missing_returns_column returns ∨ missing_var_column cl var_forecasts
          ∨ kupiec_aligned returns var_forecasts cl = []))
    ∧ run_kupiec_tests_for_model (R := R) log chi2cdf returns mn cls var_results
        = var_results.flatMap (fun p => cls.filterMap
            (fun c => (run_kupiec_test (R := R) log chi2cdf returns p.2 c mn p.1).toOption)) := by
  constructor
  · constructor
    · rintro ⟨e, he⟩
      simp only [run_kupiec_test] at he
      split at he
      · rename_i her
        left
        cases hin : returns with
        | series s => rw [hin] at her; simp [extract_returns] at her
        | frame cols =>
          rw [hin] at her
          simp only [extract_returns] at her
          split at her
          · exact absurd her (by simp)
          · rename_i hlk
            simp [missing_returns_column, hlk]
      · rename_i rs her
        split at he
        · rename_i hev
          right; left
          cases hin : var_forecasts with
          | series s => rw [hin] at hev; simp [extract_var] at hev
          | frame cols =>
            rw [hin] at hev
            simp only [extract_var] at hev
            split at hev
            · exact absurd hev (by simp)
            · rename_i hlk
              simp [missing_var_column, hlk]
        · rename_i vs hev
          split at he
          · rename_i hemp
            right; right
            rw [kupiec_aligned, her, hev]
            exact List.isEmpty_iff.mp hemp
          · split at he
            · rename_i hn0
              right; right
              rw [kupiec_aligned, her, hev]
              exact List.length_eq_zero.mp hn0
            · exact absurd he (by simp)
    · intro hcase
      rcases hcase with hmr | hmv | hal
      · cases hin : returns with
        | series s => rw [hin] at hmr; simp [missing_returns_column] at hmr
        | frame cols =>
          rw [hin] at hmr
          simp only [missing_returns_column] at hmr
          refine ⟨"Returns DataFrame must have Returns column", ?_⟩
          simp [run_kupiec_test, extract_returns, hmr]
      · cases her : extract_returns returns with
        | error e =>
          exact ⟨e, by simp [run_kupiec_test, her]⟩
        | ok rs =>
          cases hin : var_forecasts with
          | series s => rw [hin] at hmv; simp [missing_var_column] at hmv
          | frame cols =>
            rw [hin] at hmv
            simp only [missing_var_column] at hmv
            refine ⟨"VaR forecasts must have the VaR column", ?_⟩
            simp [run_kupiec_test, her, extract_var, hmv]
      · cases her : extract_returns returns with
        | error e =>
          exact ⟨e, by simp [run_kupiec_test, her]⟩
        | ok rs =>
          cases hev : extract_var cl var_forecasts with
          | error e =>
            exact ⟨e, by simp [run_kupiec_test, her, hev]⟩
          | ok vs =>
            have hal2 : merge_dropna rs vs = [] := by
              rw [kupiec_aligned, her, hev] at hal
              exact hal
            refine ⟨"No valid data after merging returns and VaR", ?_⟩
            simp [run_kupiec_test, her, hev, hal2]
  · induction var_results with
    | nil => rfl
    | cons p rest ih =>
      cases p with
      | mk wl0 df =>
        simp only [run_kupiec_tests_for_model, List.flatMap_cons]
        rw [kupiec_try_levels_eq, ih]

/-! ## Eager parameter validation -/

/-- The parameter errors of section 7 of the design: a non-positive window
size, a window size exceeding the data length, or a confidence level
outside the open interval (0, 1). -/
def bad_params (L : ℕ) (ws : List (String × ℤ)) (cls : List ℚ) : Prop :=
  (∃ p ∈ ws, p.2 ≤ 0) ∨ (∃ p ∈ ws, (L : ℤ) < p.2) ∨ ∃ c ∈ cls, ¬(0 < c ∧ c < 1)

theorem check_windows_error_of_bad (L : ℕ) (ws : List (String × ℤ))
    (hbad : ∃ p ∈ ws, p.2 ≤ 0 ∨ (L : ℤ) < p.2) :
    ∃ e, check_windows L ws = .error e := by
  induction ws with
  | nil => simp at hbad
  | cons p rest ih =>
    obtain ⟨q, hq, hqbad⟩ := hbad
    cases p with
    | mk lbl w =>
      rcases List.mem_cons.mp hq with rfl | hmem
      · simp only [check_windows]
        rcases hqbad with hle | hlt
        · exact ⟨_, by rw [if_pos hle]⟩
        · by_cases hle : w ≤ 0
          · exact ⟨_, by rw [if_pos hle]⟩
          · exact ⟨_, by rw [if_neg hle, if_pos hlt]⟩
      · simp only [check_windows]
        by_cases hle : w ≤ 0
        · exact ⟨_, by rw [if_pos hle]⟩
        · by_cases hlt : (L : ℤ) < w
          · exact ⟨_, by rw [if_neg hle, if_pos hlt]⟩
          · obtain ⟨e, he⟩ := ih ⟨q, hmem, hqbad⟩
            exact ⟨e, by rw [if_neg hle, if_neg hlt]; exact he⟩

theorem check_confidence_levels_error_of_bad (cls : List ℚ)
    (hbad : ∃ c ∈ cls, ¬(0 < c ∧ c < 1)) :
    ∃ e, check_confidence_levels cls = .error e := by
  induction cls with
  | nil => simp at hbad
  | cons c rest ih =>
    obtain ⟨q, hq, hqbad⟩ := hbad
    rcases List.mem_cons.mp hq with rfl | hmem
    · exact ⟨_, by simp only [check_confidence_levels]; rw [if_pos hqbad]⟩
    · simp only [check_confidence_levels]
      by_cases hcb : ¬(0 < c ∧ c < 1)
      · exact ⟨_, by rw [if_pos hcb]⟩
      · obtain ⟨e, he⟩ := ih ⟨q, hmem, hqbad⟩
        exact ⟨e, by rw [if_neg hcb]; exact he⟩

theorem validate_model_inputs_error_of_bad (f : Frame) (ws : List (String × ℤ))
    (cls : List ℚ) (hbad : bad_params (frame_len f) ws cls) :
    ∃ e, validate_model_inputs f ws cls = .error e := by
  simp only [validate_model_inputs]
  by_cases h0 : frame_len f = 0
  · exact ⟨_, by rw [if_pos h0]⟩
  · rw [if_neg h0]
    rcases hbad with hw | hw | hc
    · obtain ⟨e, he⟩ := check_windows_error_of_bad (frame_len f) ws
        (by obtain ⟨p, hp, h⟩ := hw; exact ⟨p, hp, Or.inl h⟩)
      exact ⟨e, by rw [he]⟩
    · obtain ⟨e, he⟩ := check_windows_error_of_bad (frame_len f) ws
        (by obtain ⟨p, hp, h⟩ := hw; exact ⟨p, hp, Or.inr h⟩)
      exact ⟨e, by rw [he]⟩
    · cases hcw : check_windows (frame_len f) ws with
      | error e => exact ⟨e, rfl⟩
      | ok u => exact check_confidence_levels_error_of_bad cls hc

theorem vix_error_of_validate_error (gsqrt : ℚ → ℚ) (f : Frame)
    (ws : List (String × ℤ)) (cls : List ℚ)
    (h : ∃ e, validate_model_inputs f ws cls = .error e) :
    ∃ e, calculate_vix_regression_var gsqrt f ws cls = .error e := by
  obtain ⟨e, hv⟩ := h
  simp only [validate_model_inputs] at hv
  simp only [calculate_vix_regression_var]
  by_cases h0 : frame_len f = 0
  · exact ⟨_, by rw [if_pos h0]⟩
  · rw [if_neg h0] at hv ⊢
    cases hw : check_windows (frame_len f) ws with
    | error e2 => exact ⟨e2, rfl⟩
    | ok u =>
      rw [hw] at hv
      simp only at hv
      cases hc : check_confidence_levels cls with
      | error e3 => exact ⟨e3, rfl⟩
      | ok u2 =>
        rw [hc] at hv
        exact absurd hv (by simp)

/-- C7 (amended).  The validated entry points — the historical model, the
callback-based Monte Carlo model and the VIX-regression model — raise on a
non-positive window size, a window size exceeding the data length, or a
confidence level outside (0, 1), before computing any forecast.  (The
legacy Monte Carlo entry point invoked by main.py performs no such
validation; see the counterexample.) -/
theorem validated_entries_raise (fsqrt : ℚ → ℚ) (S : ℕ) (z : List ℚ) (gsqrt : ℚ → ℚ)
    (f : Frame) (ws : List (String × ℤ)) (cls : List ℚ)
    (hbad : bad_params (frame_len f) ws cls) :
    (∃ e, calculate_historical_var f ws cls = .error e)
    ∧ (∃ e, mc_calculate_monte_carlo_var fsqrt S z f ws cls = .error e)
    ∧ (∃ e, calculate_vix_regression_var gsqrt f ws cls = .error e) := by
  obtain ⟨e, hv⟩ := validate_model_inputs_error_of_bad f ws cls hbad
  refine ⟨⟨e, ?_⟩, ⟨e, ?_⟩, ?_⟩
  · simp [calculate_historical_var, hv]
  · simp [mc_calculate_monte_carlo_var, hv]
  · exact vix_error_of_validate_error gsqrt f ws cls ⟨e, hv⟩

/-- Witness for the amended C7 at a concrete frame and a non-positive
window size. -/
theorem validated_entries_raise_witness :
    (∃ e, calculate_historical_var [("Returns", [some 1])] [("w", -1)] [] = .error e)
    ∧ (∃ e, mc_calculate_monte_carlo_var (fun _ => 0) 1 [0] [("Returns", [some 1])]
        [("w", -1)] [] = .error e)
    ∧ (∃ e, calculate_vix_regression_var (fun _ => 0) [("Returns", [some 1])]
        [("w", -1)] [] = .error e) :=
  validated_entries_raise (fun _ => 0) 1 [0] (fun _ => 0) [("Returns", [some 1])]
    [("w", -1)] [] (Or.inl ⟨("w", -1), by decide, by decide⟩)

/-- The concrete frame of the C7 counterexample: two rows of returns. -/
def mc_bad_window_frame : Frame := [("Returns", [some 1, some 2])]

/-- C7 counterexample: the legacy Monte Carlo entry point invoked by
main.py does not raise on a window size (5) exceeding the data length (2);
it returns an empty forecast table for that window instead. -/
theorem legacy_mc_ignores_bad_window :
    bad_params (frame_len mc_bad_window_frame) [("w", 5)] [1 / 2]
    ∧ legacy_calculate_monte_carlo_var (fun _ => 0) 2 [0, 1] mc_bad_window_frame
        [("w", 5)] [1 / 2] = .ok [("w", [])]
    ∧ ¬∃ e, legacy_calculate_monte_carlo_var (fun _ => 0) 2 [0, 1] mc_bad_window_frame
        [("w", 5)] [1 / 2] = .error e := by
  refine ⟨Or.inr (Or.inl ⟨("w", 5), by decide, by decide⟩), rfl, ?_⟩
  rintro ⟨e, he⟩
  rw [show legacy_calculate_monte_carlo_var (fun _ => 0) 2 [0, 1] mc_bad_window_frame
      [("w", 5)] [1 / 2] = .ok [("w", [])] from rfl] at he
  exact Except.noConfusion he

/-! ## Ranking claims -/

/-- A comparison row with absolute deviation 3. -/
def ranking_row_A : ComparisonRow :=
  { model := "A", rollingWindow := "1m", confidenceLevel := 1, violations := 5,
    expectedViolations := 2, absDeviation := 3 }

/-- A second comparison row of the same group, also with absolute
deviation 3. -/
def ranking_row_B : ComparisonRow :=
  { model := "B", rollingWindow := "1m", confidenceLevel := 1, violations := 1,
    expectedViolations := 4, absDeviation := 3 }

/-- Two comparison rows in the same (window, confidence level) group with
equal absolute deviation. -/
def ranking_tie_input : List ComparisonRow :=
  [ranking_row_A, ranking_row_B]

/-- C8 counterexample: the rank assignment is not a dense rank — on a
group of two rows with equal absolute deviation, the tied rows receive
the distinct ranks 1 and 2 under either of the two sorted orders the
(tie-order-unspecified) quicksort of sort_values can return, and in
particular rank_models_by_coverage does so on this input under a concrete
valid sorting routine (the group is already ascending, so the identity is
one). -/
theorem ranking_ties_not_dense :
    (¬ ∀ r1 ∈ rank_group [ranking_row_A, ranking_row_B],
        ∀ r2 ∈ rank_group [ranking_row_A, ranking_row_B],
          r1.rollingWindow = r2.rollingWindow → r1.confidenceLevel = r2.confidenceLevel →
            r1.absDeviation = r2.absDeviation → r1.rank = r2.rank)
    ∧ (¬ ∀ r1 ∈ rank_group [ranking_row_B, ranking_row_A],
        ∀ r2 ∈ rank_group [ranking_row_B, ranking_row_A],
          r1.rollingWindow = r2.rollingWindow → r1.confidenceLevel = r2.confidenceLevel →
            r1.absDeviation = r2.absDeviation → r1.rank = r2.rank)
    ∧ (¬ ∀ r1 ∈ rank_models_by_coverage (fun g => g) ranking_tie_input,
        ∀ r2 ∈ rank_models_by_coverage (fun g => g) ranking_tie_input,
          r1.rollingWindow = r2.rollingWindow → r1.confidenceLevel = r2.confidenceLevel →
            r1.absDeviation = r2.absDeviation → r1.rank = r2.rank) := by
  refine ⟨?_, ?_, ?_⟩ <;> decide

/-- C8 (amended).  Within each (window, confidence level) group,
rank_models_by_coverage orders the rows ascending by absolute deviation
with sort_values — a deterministic routine returning some ascending
permutation of the group, the relative order of tied rows unspecified —
and assigns the sequential ordinal ranks 1..k positionally: rank 1 the
smallest absolute deviation, rows with equal absolute deviation receiving
distinct consecutive ranks in the order the sort returned; the full table
is the concatenation of the per-group rankings, and re-running on the
same input repeats the same deterministic sort, so the rank assignments
are identical (immediate here, the ranking being a function of the sort
routine and the input). -/
theorem rank_group_ordinal (sort_values : List ComparisonRow → List ComparisonRow)
    (rows : List ComparisonRow) (k : String × ℚ)
    (hperm : (sort_values (rows.filter (fun r => decide (row_key r = k)))).Perm
        (rows.filter (fun r => decide (row_key r = k))))
    (hsorted : (sort_values (rows.filter (fun r => decide (row_key r = k)))).Pairwise
        (fun a b => a.absDeviation ≤ b.absDeviation)) :
    ((rank_group (sort_values (rows.filter (fun r => decide (row_key r = k))))).map
        (fun r => r.rank)
      = List.range' 1 (rows.filter (fun r => decide (row_key r = k))).length)
    ∧ List.Pairwise (· ≤ ·)
        ((rank_group (sort_values (rows.filter (fun r => decide (row_key r = k))))).map
          (fun r => r.absDeviation))
    ∧ rank_models_by_coverage sort_values rows
      = ((rows.map row_key).dedup).flatMap
          (fun k2 => rank_group (sort_values (rows.filter (fun r => decide (row_key r = k2))))) := by
  refine ⟨?_, ?_, rfl⟩
  · simp only [rank_group, List.map_map]
    have hz : ((sort_values (rows.filter (fun r => decide (row_key r = k)))).zip
        (List.range' 1 (sort_values (rows.filter (fun r => decide (row_key r = k)))).length)).map
          Prod.snd
        = List.range' 1 (sort_values (rows.filter (fun r => decide (row_key r = k)))).length := by
      apply List.map_snd_zip
      rw [List.length_range']
    have hcomp : ((fun r : RankedRow => r.rank) ∘ (fun p : ComparisonRow × ℕ =>
        ({ model := p.1.model, rollingWindow := p.1.rollingWindow,
           confidenceLevel := p.1.confidenceLevel, violations := p.1.violations,
           expectedViolations := p.1.expectedViolations,
           absDeviation := p.1.absDeviation, rank := p.2 } : RankedRow)))
        = Prod.snd := rfl
    rw [hcomp, hz, hperm.length_eq]
  · simp only [rank_group, List.map_map]
    have hcomp : ((fun r : RankedRow => r.absDeviation) ∘ (fun p : ComparisonRow × ℕ =>
        ({ model := p.1.model, rollingWindow := p.1.rollingWindow,
           confidenceLevel := p.1.confidenceLevel, violations := p.1.violations,
           expectedViolations := p.1.expectedViolations,
           absDeviation := p.1.absDeviation, rank := p.2 } : RankedRow)))
        = (fun r : ComparisonRow => r.absDeviation) ∘ Prod.fst := rfl
    rw [hcomp, ← List.map_map]
    have hf : ((sort_values (rows.filter (fun r => decide (row_key r = k)))).zip
        (List.range' 1 (sort_values (rows.filter (fun r => decide (row_key r = k)))).length)).map
          Prod.fst
        = sort_values (rows.filter (fun r => decide (row_key r = k))) := by
      apply List.map_fst_zip
      rw [List.length_range']
    rw [hf]
    rw [List.pairwise_map]
    exact hsorted

/-- Witness for the amended C8: the tied group is already ascending, so
the identity routine is a valid sort_values output on it. -/
theorem rank_group_ordinal_witness :
    ((rank_group (ranking_tie_input.filter
        (fun r => decide (row_key r = ("1m", 1))))).map (fun r => r.rank)
      = List.range' 1 (ranking_tie_input.filter
          (fun r => decide (row_key r = ("1m", 1)))).length)
    ∧ List.Pairwise (· ≤ ·)
        ((rank_group (ranking_tie_input.filter
          (fun r => decide (row_key r = ("1m", 1))))).map (fun r => r.absDeviation))
    ∧ rank_models_by_coverage (fun g => g) ranking_tie_input
      = ((ranking_tie_input.map row_key).dedup).flatMap
          (fun k2 => rank_group (ranking_tie_input.filter
            (fun r => decide (row_key r = k2)))) :=
  rank_group_ordinal (fun g => g) ranking_tie_input ("1m", 1) (by decide) (by decide)
